import Mathlib

/-!
# LLRA rate manager: threshold table and per-station callbacks

A shallow embedding of `src/wifi/model/llra-wifi-manager.{h,cc}`.

* Unsigned machine integers are `Nat`; every increment that can wrap carries its
  explicit modulus (`% 2 ^ 32` for `uint32_t`, `% 2 ^ 16`, `% 2 ^ 8`).
* A `double` is its three IEEE-754 bit fields.  The only floating-point operations the
  embedded code performs on station data are the comparison `x == 0` and assignment,
  both exact on bit fields.
* `NS_ASSERT` is modelled as enabled: a failed assertion ends the call with
  `Fault.assertionFailed`.  A read past the end of a C array ends the call with
  `Fault.outOfBounds`.  Loops whose counter can wrap run on fuel and end with
  `Fault.outOfFuel` when the fuel is exhausted.
* The PHY (`GetPhy ()`), the mode factory behind `WifiMode` and the support flags of the
  base class are external to the repository; they are fields of `WifiPhy` and
  `LlraWifiManager`.
-/

namespace Llra

/-! ## Data model -/

/-- Abnormal ways for a modelled call to end. -/
inductive Fault where
  | assertionFailed
  | outOfBounds
  | outOfFuel
  deriving DecidableEq, Repr

/-- An IEEE-754 binary64 value, by bit fields: 1 sign bit, 11 exponent bits, 52 fraction bits. -/
structure Double where
  sign : Bool
  exponent : Nat
  fraction : Nat
  deriving DecidableEq, Repr

/-- The C++ comparison `d == 0` on a double: true exactly for `+0.0` and `-0.0`
(biased exponent and fraction both zero); false for every other value, NaN included. -/
def Double.eqZero (d : Double) : Bool :=
  d.exponent == 0 && d.fraction == 0

/-- The literal `0.0`. -/
def Double.zero : Double := ⟨false, 0, 0⟩

/-- The constant `CACHE_INITIAL_VALUE = -100`: sign 1, exponent 1029, fraction of 1.5625. -/
def CACHE_INITIAL_VALUE : Double := ⟨true, 1029, 2533274790395904⟩

/-- The enumeration `WifiModulationClass` of ns-3. -/
inductive WifiModulationClass where
  | WIFI_MOD_CLASS_UNKNOWN
  | WIFI_MOD_CLASS_IR
  | WIFI_MOD_CLASS_FHSS
  | WIFI_MOD_CLASS_DSSS
  | WIFI_MOD_CLASS_HR_DSSS
  | WIFI_MOD_CLASS_ERP_PBCC
  | WIFI_MOD_CLASS_ERP_OFDM
  | WIFI_MOD_CLASS_OFDM
  | WIFI_MOD_CLASS_HT
  | WIFI_MOD_CLASS_VHT
  | WIFI_MOD_CLASS_HE
  deriving DecidableEq, Repr

open WifiModulationClass

/-- A `WifiMode` is a handle: `operator==` compares the unique id and nothing else. -/
structure WifiMode where
  m_uid : Nat
  deriving DecidableEq, Repr

/-- The fields of `WifiTxVector` that the manager reads or writes, for a vector whose
mode is set (`GetSnrThreshold` takes a vector "containing valid mode, width, and nss"). -/
structure WifiTxVector where
  m_mode : WifiMode
  m_channelWidth : Nat
  m_guardInterval : Nat
  m_nss : Nat
  deriving DecidableEq, Repr

/-- A default-constructed `WifiTxVector`: width 20, guard interval 800, one stream. -/
def WifiTxVector.new : WifiTxVector :=
  { m_mode := ⟨0⟩, m_channelWidth := 20, m_guardInterval := 800, m_nss := 1 }

def WifiTxVector.SetChannelWidth (tv : WifiTxVector) (w : Nat) : WifiTxVector :=
  { tv with m_channelWidth := w }

def WifiTxVector.SetNss (tv : WifiTxVector) (nss : Nat) : WifiTxVector :=
  { tv with m_nss := nss }

def WifiTxVector.SetMode (tv : WifiTxVector) (mode : WifiMode) : WifiTxVector :=
  { tv with m_mode := mode }

def WifiTxVector.SetGuardInterval (tv : WifiTxVector) (gi : Nat) : WifiTxVector :=
  { tv with m_guardInterval := gi }

/-- The struct `LlraWifiRemoteStation` (the fields it adds to the base station).
The callbacks write `station->packets` and read `station->alpha`; these are the fields
declared as `m_packets` and `m_alpha`. -/
structure LlraWifiRemoteStation where
  m_packets : Nat
  m_success : Nat
  m_failed : Nat
  Nrt : Fin 100 → Nat
  m_retry : Nat
  m_timerTimeout : Nat
  m_rate : Nat
  m_alpha : Nat
  m_lastSnrObserved : Double
  m_lastSnrCached : Double
  m_nss : Double
  m_lastMode : WifiMode

/-- The typedef `Thresholds`: a vector of (snr, txVector) pairs. -/
abbrev Thresholds := List (Double × WifiTxVector)

/-- The PHY and mode factory as the manager sees them.  `maxSupportedTxSpatialStreams`
is the `uint8_t` that `GetMaxSupportedTxSpatialStreams ()` returns. -/
structure WifiPhy where
  modes : List WifiMode
  mcs : List WifiMode
  channelWidth : Nat
  shortGuardInterval : Bool
  guardInterval : Nat
  maxSupportedTxSpatialStreams : Nat
  modulationClass : WifiMode → WifiModulationClass
  mcsValue : WifiMode → Nat
  calculateSnr : WifiTxVector → Double → Double

def WifiPhy.GetNModes (phy : WifiPhy) : Nat := phy.modes.length

def WifiPhy.GetMode (phy : WifiPhy) (i : Nat) : WifiMode := phy.modes.getD i ⟨0⟩

def WifiPhy.GetNMcs (phy : WifiPhy) : Nat := phy.mcs.length

def WifiPhy.GetMcs (phy : WifiPhy) (i : Nat) : WifiMode := phy.mcs.getD i ⟨0⟩

/-- The manager object: its own members and the base-class state it queries. -/
structure LlraWifiManager where
  phy : WifiPhy
  htSupported : Bool
  vhtSupported : Bool
  heSupported : Bool
  m_timerThreshold : Nat
  m_alpha : Nat
  m_ber : Double
  m_thresholds : Thresholds

/-! ## Threshold table -/

/-- The test of `GetSnrThreshold`: same mode, same nss, same channel width. -/
def sameConfig (a b : WifiTxVector) : Bool :=
  a.m_mode == b.m_mode && a.m_nss == b.m_nss && a.m_channelWidth == b.m_channelWidth

/-- `LlraWifiManager::GetSnrThreshold`: first entry that matches, else `NS_ASSERT (false)`. -/
def GetSnrThreshold : Thresholds → WifiTxVector → Except Fault Double
  | [], _ => .error .assertionFailed
  | (snr, tv) :: rest, txVector =>
    if sameConfig txVector tv then .ok snr else GetSnrThreshold rest txVector

/-- `LlraWifiManager::AddSnrThreshold`: `push_back (make_pair (snr, txVector))`. -/
def AddSnrThreshold (thresholds : Thresholds) (txVector : WifiTxVector) (snr : Double) :
    Thresholds :=
  thresholds ++ [(snr, txVector)]

/-- `LlraWifiManager::GetChannelWidthForMode`. -/
def GetChannelWidthForMode (phy : WifiPhy) (mode : WifiMode) : Except Fault Nat :=
  if phy.modulationClass mode ≠ WIFI_MOD_CLASS_HT
      ∧ phy.modulationClass mode ≠ WIFI_MOD_CLASS_VHT
      ∧ phy.modulationClass mode ≠ WIFI_MOD_CLASS_HE then
    if phy.modulationClass mode = WIFI_MOD_CLASS_DSSS
        ∨ phy.modulationClass mode = WIFI_MOD_CLASS_HR_DSSS then
      .ok 22
    else
      .ok 20
  else
    .error .assertionFailed

/-! ## Per-station callbacks -/

/-- `LlraWifiManager::DoCreateStation`: value-initialised struct, then four assignments. -/
def DoCreateStation (defaultMode : WifiMode) : LlraWifiRemoteStation :=
  { m_packets := 0, m_success := 0, m_failed := 0, Nrt := fun _ => 0, m_retry := 0,
    m_timerTimeout := 0, m_rate := 0, m_alpha := 0,
    m_lastSnrObserved := Double.zero,
    m_lastSnrCached := CACHE_INITIAL_VALUE,
    m_nss := ⟨false, 1023, 0⟩,
    m_lastMode := defaultMode }

/-- `LlraWifiManager::CalculateLatency`: the body only initialises a local and writes
nothing to the station; no caller uses a returned value. -/
def CalculateLatency (station : LlraWifiRemoteStation) : LlraWifiRemoteStation :=
  station

/-- `LlraWifiManager::ProbeMode`: empty body. -/
def ProbeMode (station : LlraWifiRemoteStation) : LlraWifiRemoteStation :=
  station

def DoReportRxOk (station : LlraWifiRemoteStation) (_rxSnr : Double) (_txMode : WifiMode) :
    LlraWifiRemoteStation :=
  station

def DoReportRtsFailed (station : LlraWifiRemoteStation) : LlraWifiRemoteStation :=
  station

/-- `LlraWifiManager::DoReportDataFailed`: `station->packets++; CalculateLatency (station)`. -/
def DoReportDataFailed (st : LlraWifiRemoteStation) : LlraWifiRemoteStation :=
  let station := { st with m_packets := (st.m_packets + 1) % 2 ^ 32 }
  CalculateLatency station

/-- `LlraWifiManager::DoReportRtsOk`: `station->m_lastSnrObserved = rtsSnr`. -/
def DoReportRtsOk (st : LlraWifiRemoteStation) (_ctsSnr : Double) (_ctsMode : WifiMode)
    (rtsSnr : Double) : LlraWifiRemoteStation :=
  { st with m_lastSnrObserved := rtsSnr }

/-- `LlraWifiManager::DoReportDataOk`. -/
def DoReportDataOk (st : LlraWifiRemoteStation) (_ackSnr : Double) (_ackMode : WifiMode)
    (dataSnr : Double) : LlraWifiRemoteStation :=
  let station := { st with m_packets := (st.m_packets + 1) % 2 ^ 32 }
  let station := CalculateLatency station
  if dataSnr.eqZero then
    station
  else
    { station with m_lastSnrObserved := dataSnr }

/-- `LlraWifiManager::DoReportAmpduTxStatus`. -/
def DoReportAmpduTxStatus (st : LlraWifiRemoteStation) (_nSuccessfulMpdus _nFailedMpdus : Nat)
    (_rxSnr : Double) (dataSnr : Double) : LlraWifiRemoteStation :=
  if dataSnr.eqZero then
    st
  else
    { st with m_lastSnrObserved := dataSnr }

def DoReportFinalRtsFailed (station : LlraWifiRemoteStation) : LlraWifiRemoteStation :=
  station

def DoReportFinalDataFailed (station : LlraWifiRemoteStation) : LlraWifiRemoteStation :=
  station

/-- `LlraWifiManager::DoGetDataTxVector`.  The body has no return statement; what is
modelled is its effect: the station after the call and whether `ProbeMode` was called.
`Nrt` has 100 elements, so the read `Nrt[alpha]` is inside the array only for
`alpha < 100`. -/
def DoGetDataTxVector (station : LlraWifiRemoteStation) :
    Except Fault (LlraWifiRemoteStation × Bool) :=
  if station.m_packets % 100 = 0 then
    if h : station.m_alpha < 100 then
      if station.Nrt ⟨station.m_alpha, h⟩ > 0 then
        .ok (ProbeMode station, true)
      else
        .ok (station, false)
    else
      .error .outOfBounds
  else
    .ok (station, false)

/-- `LlraWifiManager::DoGetRtsTxVector`: empty body, the station is not touched. -/
def DoGetRtsTxVector (station : LlraWifiRemoteStation) : LlraWifiRemoteStation :=
  station

/-- The station states the manager can hold: a station comes from `DoCreateStation` and is
changed only by the callbacks and the two queries. -/
inductive Reachable : LlraWifiRemoteStation → Prop where
  | create (defaultMode : WifiMode) : Reachable (DoCreateStation defaultMode)
  | rxOk {s : LlraWifiRemoteStation} (rxSnr : Double) (txMode : WifiMode) :
      Reachable s → Reachable (DoReportRxOk s rxSnr txMode)
  | rtsFailed {s : LlraWifiRemoteStation} :
      Reachable s → Reachable (DoReportRtsFailed s)
  | dataFailed {s : LlraWifiRemoteStation} :
      Reachable s → Reachable (DoReportDataFailed s)
  | rtsOk {s : LlraWifiRemoteStation} (ctsSnr : Double) (ctsMode : WifiMode) (rtsSnr : Double) :
      Reachable s → Reachable (DoReportRtsOk s ctsSnr ctsMode rtsSnr)
  | dataOk {s : LlraWifiRemoteStation} (ackSnr : Double) (ackMode : WifiMode)
      (dataSnr : Double) :
      Reachable s → Reachable (DoReportDataOk s ackSnr ackMode dataSnr)
  | ampduTxStatus {s : LlraWifiRemoteStation} (nSuccessfulMpdus nFailedMpdus : Nat)
      (rxSnr dataSnr : Double) :
      Reachable s →
        Reachable (DoReportAmpduTxStatus s nSuccessfulMpdus nFailedMpdus rxSnr dataSnr)
  | finalRtsFailed {s : LlraWifiRemoteStation} :
      Reachable s → Reachable (DoReportFinalRtsFailed s)
  | finalDataFailed {s : LlraWifiRemoteStation} :
      Reachable s → Reachable (DoReportFinalDataFailed s)
  | getDataTxVector {s s2 : LlraWifiRemoteStation} {probed : Bool} :
      Reachable s → DoGetDataTxVector s = .ok (s2, probed) → Reachable s2
  | getRtsTxVector {s : LlraWifiRemoteStation} :
      Reachable s → Reachable (DoGetRtsTxVector s)

/-! ## Table construction -/

/-- The locals of `DoInitialize` that live across loop iterations, and the table. -/
structure InitState where
  txVector : WifiTxVector
  nss : Nat
  thresholds : Thresholds

/-- Body of the first loop of `DoInitialize` (legacy modes), at index `i`. -/
def legacyBody (phy : WifiPhy) (ber : Double) (st : InitState) (i : Nat) :
    Except Fault InitState :=
  let mode := phy.GetMode i
  match GetChannelWidthForMode phy mode with
  | .error e => .error e
  | .ok w =>
    let txVector := ((st.txVector.SetChannelWidth w).SetNss st.nss).SetMode mode
    .ok { st with
          txVector := txVector
          thresholds := AddSnrThreshold st.thresholds txVector (phy.calculateSnr txVector ber) }

/-- The innermost loop of `DoInitialize` (VHT or HE):
`for (uint8_t i = 1; i <= GetMaxSupportedTxSpatialStreams (); i++)`, from counter value `k`.
The local `guardInterval` of this branch is computed and never stored. -/
def nssLoop (phy : WifiPhy) (ber : Double) (mode : WifiMode) :
    Nat → Nat → InitState → Except Fault InitState
  | 0, _, _ => .error .outOfFuel
  | fuel + 1, k, st =>
    if k ≤ phy.maxSupportedTxSpatialStreams then
      let txVector := (st.txVector.SetNss k).SetMode mode
      nssLoop phy ber mode fuel ((k + 1) % 2 ^ 8)
        { st with
          txVector := txVector
          thresholds := AddSnrThreshold st.thresholds txVector (phy.calculateSnr txVector ber) }
    else
      .ok st

/-- Body of the channel-width loop of `DoInitialize`, for MCS index `i` at width `j`
(`j` does not exceed the PHY width and is stored as it is). -/
def widthBody (phy : WifiPhy) (ber : Double) (nssFuel : Nat) (i : Nat) (j : Nat)
    (st : InitState) : Except Fault InitState :=
  let txVector := st.txVector.SetChannelWidth j
  let mode := phy.GetMcs i
  if phy.modulationClass mode = WIFI_MOD_CLASS_HT then
    let guardInterval := if phy.shortGuardInterval then 400 else 800
    let txVector := txVector.SetGuardInterval guardInterval
    let nss := ((phy.mcsValue mode % 2 ^ 8) / 8 + 1) % 2 ^ 8
    let txVector := (txVector.SetNss nss).SetMode mode
    .ok { txVector := txVector
          nss := nss
          thresholds := AddSnrThreshold st.thresholds txVector (phy.calculateSnr txVector ber) }
  else
    nssLoop phy ber mode nssFuel 1 { st with txVector := txVector }

/-- The channel-width loop of `DoInitialize`:
`for (uint16_t j = 20; j <= GetChannelWidth (); j *= 2)`, from counter value `j`. -/
def widthLoop (phy : WifiPhy) (ber : Double) (nssFuel : Nat) (i : Nat) :
    Nat → Nat → InitState → Except Fault InitState
  | 0, _, _ => .error .outOfFuel
  | fuel + 1, j, st =>
    if j ≤ phy.channelWidth then
      match widthBody phy ber nssFuel i j st with
      | .error e => .error e
      | .ok st1 => widthLoop phy ber nssFuel i fuel ((j * 2) % 2 ^ 16) st1
    else
      .ok st

/-- `LlraWifiManager::DoInitialize`.  Both counted loops read their bound into a
`uint8_t`; every run of an inner loop gets `fuel` iterations. -/
def DoInitialize (fuel : Nat) (mgr : LlraWifiManager) : Except Fault LlraWifiManager :=
  let st0 : InitState :=
    { txVector := WifiTxVector.new, nss := 1, thresholds := mgr.m_thresholds }
  let nModes := mgr.phy.GetNModes % 2 ^ 8
  match (List.range nModes).foldlM (legacyBody mgr.phy mgr.m_ber) st0 with
  | .error e => .error e
  | .ok st1 =>
    if mgr.vhtSupported = true ∨ mgr.htSupported = true ∨ mgr.heSupported = true then
      let nModes := mgr.phy.GetNMcs % 2 ^ 8
      match (List.range nModes).foldlM
          (fun st i => widthLoop mgr.phy mgr.m_ber fuel i fuel 20 st) st1 with
      | .error e => .error e
      | .ok st2 => .ok { mgr with m_thresholds := st2.thresholds }
    else
      .ok { mgr with m_thresholds := st1.thresholds }

/-! ## Vocabulary for the table invariant -/

/-- The part of a transmit vector that `GetSnrThreshold` compares. -/
def configKey (tv : WifiTxVector) : WifiMode × Nat × Nat :=
  (tv.m_mode, tv.m_nss, tv.m_channelWidth)

/-- The keys of a table, in table order. -/
def tableKeys (t : Thresholds) : List (WifiMode × Nat × Nat) :=
  t.map (fun e => configKey e.2)

/-- Every stored threshold is the SNR the PHY computes for the stored vector at `ber`. -/
def Computed (phy : WifiPhy) (ber : Double) (t : Thresholds) : Prop :=
  ∀ e ∈ t, e.1 = phy.calculateSnr e.2 ber

/-- The table of `st2` is the table of `st1` followed by entries with keys `ks`, and
`Computed` carries over. -/
def Extends (phy : WifiPhy) (ber : Double) (ks : List (WifiMode × Nat × Nat))
    (st1 st2 : InitState) : Prop :=
  tableKeys st2.thresholds = tableKeys st1.thresholds ++ ks
  ∧ (Computed phy ber st1.thresholds → Computed phy ber st2.thresholds)

/-- The values the counter of the channel-width loop takes from `j` on, for PHY width `w`. -/
def Visits (w : Nat) : Nat → List Nat → Prop
  | j, [] => ¬ j ≤ w
  | j, x :: xs => j = x ∧ j ≤ w ∧ Visits w ((j * 2) % 2 ^ 16) xs

/-- The widths 20, 40, 80, 160 that do not exceed `w`. -/
def widthsUpTo (w : Nat) : List Nat :=
  [20, 40, 80, 160].filter (fun j => j ≤ w)

/-- The key registered for a legacy mode. -/
def legacyKeys (phy : WifiPhy) (mode : WifiMode) : List (WifiMode × Nat × Nat) :=
  match GetChannelWidthForMode phy mode with
  | .ok w => [(mode, 1, w)]
  | .error _ => []

/-- The keys registered for an MCS at one channel width. -/
def mcsKeys (phy : WifiPhy) (mode : WifiMode) (j : Nat) : List (WifiMode × Nat × Nat) :=
  if phy.modulationClass mode = WIFI_MOD_CLASS_HT then
    [(mode, ((phy.mcsValue mode % 2 ^ 8) / 8 + 1) % 2 ^ 8, j)]
  else
    (List.range' 1 phy.maxSupportedTxSpatialStreams).map (fun k => (mode, k, j))

/-- A lookup of any vector with key `κ` returns the SNR the PHY computed, at `ber`, for a
vector with key `κ`. -/
def Resolves (phy : WifiPhy) (ber : Double) (t : Thresholds) (κ : WifiMode × Nat × Nat) :
    Prop :=
  ∀ c, configKey c = κ →
    ∃ tv, configKey tv = κ ∧ GetSnrThreshold t c = .ok (phy.calculateSnr tv ber)

/-! ## Concrete inputs -/

/-- The double `12.0`. -/
def snr12 : Double := ⟨false, 1026, 2251799813685248⟩

/-- A new station after one `DoReportRtsOk` call that reported the SNR 12.0. -/
def stationSeen : LlraWifiRemoteStation :=
  DoReportRtsOk (DoCreateStation ⟨0⟩) snr12 ⟨0⟩ snr12

/-- The station after 4294967295 reported packets: the counter holds the largest
`uint32_t` value. -/
def stationMaxPackets : LlraWifiRemoteStation :=
  { DoCreateStation ⟨0⟩ with m_packets := 4294967295 }

/-- A transmit vector: mode 7, width 20, one stream. -/
def txA : WifiTxVector := { m_mode := ⟨7⟩, m_channelWidth := 20, m_guardInterval := 800, m_nss := 1 }

/-- A transmit vector: mode 7, width 40, one stream. -/
def txB : WifiTxVector := { m_mode := ⟨7⟩, m_channelWidth := 40, m_guardInterval := 800, m_nss := 1 }

/-- A PHY that reports no mode at all. -/
def phyEmpty : WifiPhy :=
  { modes := [], mcs := [], channelWidth := 20, shortGuardInterval := false,
    guardInterval := 800, maxSupportedTxSpatialStreams := 1,
    modulationClass := fun _ => WIFI_MOD_CLASS_OFDM, mcsValue := fun _ => 0,
    calculateSnr := fun _ ber => ber }

/-- A manager over `phyEmpty`, HT enabled, with an empty table. -/
def mgrEmpty : LlraWifiManager :=
  { phy := phyEmpty, htSupported := true, vhtSupported := false, heSupported := false,
    m_timerThreshold := 0, m_alpha := 95, m_ber := ⟨false, 1003, 0⟩, m_thresholds := [] }

/-- A PHY with one VHT MCS whose largest stream count is the largest `uint8_t` value. -/
def phyStreams255 : WifiPhy :=
  { modes := [], mcs := [⟨20⟩], channelWidth := 20, shortGuardInterval := false,
    guardInterval := 800, maxSupportedTxSpatialStreams := 255,
    modulationClass := fun _ => WIFI_MOD_CLASS_VHT, mcsValue := fun _ => 0,
    calculateSnr := fun _ ber => ber }

/-- A manager over `phyStreams255`, VHT enabled, with an empty table. -/
def mgrStreams255 : LlraWifiManager :=
  { phy := phyStreams255, htSupported := false, vhtSupported := true, heSupported := false,
    m_timerThreshold := 0, m_alpha := 95, m_ber := ⟨false, 1003, 0⟩, m_thresholds := [] }

/-- A PHY whose single OFDM mode is listed both as a legacy mode and as an MCS. -/
def phyShared : WifiPhy :=
  { modes := [⟨2⟩], mcs := [⟨2⟩], channelWidth := 20, shortGuardInterval := false,
    guardInterval := 800, maxSupportedTxSpatialStreams := 1,
    modulationClass := fun _ => WIFI_MOD_CLASS_OFDM, mcsValue := fun _ => 0,
    calculateSnr := fun _ ber => ber }

/-- A manager over `phyShared`, HT enabled, with an empty table. -/
def mgrShared : LlraWifiManager :=
  { phy := phyShared, htSupported := true, vhtSupported := false, heSupported := false,
    m_timerThreshold := 0, m_alpha := 95, m_ber := ⟨false, 1003, 0⟩, m_thresholds := [] }

/-- A PHY with a DSSS and an OFDM legacy mode, an HT MCS of index 8 and a VHT MCS,
40 MHz wide, two spatial streams. -/
def phySample : WifiPhy :=
  { modes := [⟨1⟩, ⟨2⟩], mcs := [⟨10⟩, ⟨20⟩], channelWidth := 40,
    shortGuardInterval := true, guardInterval := 800, maxSupportedTxSpatialStreams := 2,
    modulationClass := fun m =>
      if m.m_uid = 1 then WIFI_MOD_CLASS_DSSS
      else if m.m_uid = 2 then WIFI_MOD_CLASS_OFDM
      else if m.m_uid = 10 then WIFI_MOD_CLASS_HT
      else WIFI_MOD_CLASS_VHT,
    mcsValue := fun m => if m.m_uid = 10 then 8 else 0,
    calculateSnr := fun tv _ => ⟨false, 1023 + tv.m_nss, tv.m_mode.m_uid + tv.m_channelWidth⟩ }

/-- A manager over `phySample`, HT and VHT enabled, with an empty table. -/
def mgrSample : LlraWifiManager :=
  { phy := phySample, htSupported := true, vhtSupported := true, heSupported := false,
    m_timerThreshold := 0, m_alpha := 95, m_ber := ⟨false, 1003, 0⟩, m_thresholds := [] }

/-! ## Theorems -/

/-! ### Reachable stations -/

theorem reachable_packets (defaultMode : WifiMode) (n : Nat) :
    Reachable { DoCreateStation defaultMode with m_packets := n % 2 ^ 32 } := by
  induction n with
  | zero => exact Reachable.create defaultMode
  | succ n ih =>
    have h := Reachable.dataFailed ih
    have hmod : (n % 2 ^ 32 + 1) % 2 ^ 32 = (n + 1) % 2 ^ 32 := by omega
    simpa [DoReportDataFailed, CalculateLatency, hmod] using h

theorem stationSeen_reachable : Reachable stationSeen :=
  Reachable.rtsOk snr12 ⟨0⟩ snr12 (Reachable.create ⟨0⟩)

theorem stationMaxPackets_reachable : Reachable stationMaxPackets :=
  reachable_packets ⟨0⟩ 4294967295

/-- C1. A zero data SNR leaves the last observed SNR as it was, in `DoReportDataOk` and in
`DoReportAmpduTxStatus`, whatever the other arguments are. -/
theorem zero_dataSnr_keeps_lastSnrObserved (s : LlraWifiRemoteStation)
    (ackSnr rxSnr dataSnr : Double) (ackMode : WifiMode) (nSuccess nFailed : Nat)
    (h0 : dataSnr.eqZero = true) :
    (DoReportDataOk s ackSnr ackMode dataSnr).m_lastSnrObserved = s.m_lastSnrObserved
    ∧ (DoReportAmpduTxStatus s nSuccess nFailed rxSnr dataSnr).m_lastSnrObserved
        = s.m_lastSnrObserved := by
  simp [DoReportDataOk, DoReportAmpduTxStatus, CalculateLatency, h0]

/-- Witness for C1 at the station `stationSeen` (last SNR 12.0) and the sample `0.0`. -/
theorem zero_dataSnr_keeps_lastSnrObserved_witness :
    Double.zero.eqZero = true
    ∧ (DoReportDataOk stationSeen snr12 ⟨0⟩ Double.zero).m_lastSnrObserved
        = stationSeen.m_lastSnrObserved
    ∧ (DoReportAmpduTxStatus stationSeen 3 1 snr12 Double.zero).m_lastSnrObserved
        = stationSeen.m_lastSnrObserved :=
  ⟨rfl, zero_dataSnr_keeps_lastSnrObserved stationSeen snr12 snr12 Double.zero ⟨0⟩ 3 1 rfl⟩

/-- C2. Postcondition of `DoReportDataOk`: the packet counter is the old one plus one
modulo 2^32, the last observed SNR is `dataSnr` unless `dataSnr == 0` (then it is the old
one), and each of the other ten fields keeps its value. -/
theorem DoReportDataOk_post (s : LlraWifiRemoteStation) (ackSnr dataSnr : Double)
    (ackMode : WifiMode) :
    (DoReportDataOk s ackSnr ackMode dataSnr).m_packets = (s.m_packets + 1) % 2 ^ 32
    ∧ (DoReportDataOk s ackSnr ackMode dataSnr).m_lastSnrObserved
        = (if dataSnr.eqZero = true then s.m_lastSnrObserved else dataSnr)
    ∧ (DoReportDataOk s ackSnr ackMode dataSnr).m_success = s.m_success
    ∧ (DoReportDataOk s ackSnr ackMode dataSnr).m_failed = s.m_failed
    ∧ (DoReportDataOk s ackSnr ackMode dataSnr).Nrt = s.Nrt
    ∧ (DoReportDataOk s ackSnr ackMode dataSnr).m_retry = s.m_retry
    ∧ (DoReportDataOk s ackSnr ackMode dataSnr).m_timerTimeout = s.m_timerTimeout
    ∧ (DoReportDataOk s ackSnr ackMode dataSnr).m_rate = s.m_rate
    ∧ (DoReportDataOk s ackSnr ackMode dataSnr).m_alpha = s.m_alpha
    ∧ (DoReportDataOk s ackSnr ackMode dataSnr).m_lastSnrCached = s.m_lastSnrCached
    ∧ (DoReportDataOk s ackSnr ackMode dataSnr).m_nss = s.m_nss
    ∧ (DoReportDataOk s ackSnr ackMode dataSnr).m_lastMode = s.m_lastMode := by
  cases h : dataSnr.eqZero <;> simp [DoReportDataOk, CalculateLatency, h]

/-- C3, the code at the failing input: on the station that `DoReportRtsOk` left with last
observed SNR 12.0, a further `DoReportRtsOk` with the sample `0.0` overwrites that field
with `0.0`. -/
theorem DoReportRtsOk_zero_overwrites :
    Reachable stationSeen
    ∧ Double.zero.eqZero = true
    ∧ stationSeen.m_lastSnrObserved = snr12
    ∧ (DoReportRtsOk stationSeen snr12 ⟨0⟩ Double.zero).m_lastSnrObserved = Double.zero
    ∧ (DoReportRtsOk stationSeen snr12 ⟨0⟩ Double.zero).m_lastSnrObserved
        ≠ stationSeen.m_lastSnrObserved := by
  refine ⟨stationSeen_reachable, rfl, rfl, rfl, ?_⟩
  decide

/-! ### Lookup and insertion -/

theorem GetSnrThreshold_append (t u : Thresholds) (c : WifiTxVector) :
    GetSnrThreshold (t ++ u) c =
      match GetSnrThreshold t c with
      | .ok v => .ok v
      | .error _ => GetSnrThreshold u c := by
  induction t with
  | nil => simp [GetSnrThreshold]
  | cons e t ih =>
    obtain ⟨snr, tv⟩ := e
    by_cases h : sameConfig c tv = true
    · simp [GetSnrThreshold, h]
    · simp [GetSnrThreshold, h, ih]

theorem GetSnrThreshold_error_iff (t : Thresholds) (c : WifiTxVector) :
    GetSnrThreshold t c = .error .assertionFailed ↔ ∀ e ∈ t, sameConfig c e.2 = false := by
  induction t with
  | nil => simp [GetSnrThreshold]
  | cons e t ih =>
    obtain ⟨snr, tv⟩ := e
    by_cases h : sameConfig c tv = true
    · simp [GetSnrThreshold, h]
    · simp [GetSnrThreshold, h, ih]

theorem GetSnrThreshold_fault (t : Thresholds) (c : WifiTxVector) (f : Fault)
    (h : GetSnrThreshold t c = .error f) : f = .assertionFailed := by
  induction t with
  | nil => simpa [GetSnrThreshold] using h.symm
  | cons e t ih =>
    obtain ⟨snr, tv⟩ := e
    by_cases hc : sameConfig c tv = true
    · simp [GetSnrThreshold, hc] at h
    · simp [GetSnrThreshold, hc] at h
      exact ih h

theorem sameConfig_self (c : WifiTxVector) : sameConfig c c = true := by
  simp [sameConfig]

/-- C4. Round trip: when no entry of the table agrees with `c` on mode, nss and width,
the lookup of `c` after `AddSnrThreshold (c, q)` returns `q`, and every lookup that
resolved before the addition returns the same value after it. -/
theorem GetSnrThreshold_AddSnrThreshold (t : Thresholds) (c : WifiTxVector) (q : Double)
    (hfresh : ∀ e ∈ t, sameConfig c e.2 = false) :
    GetSnrThreshold (AddSnrThreshold t c q) c = .ok q
    ∧ ∀ (c2 : WifiTxVector) (v : Double), GetSnrThreshold t c2 = .ok v →
        GetSnrThreshold (AddSnrThreshold t c q) c2 = .ok v := by
  constructor
  · have h := (GetSnrThreshold_error_iff t c).2 hfresh
    simp [AddSnrThreshold, GetSnrThreshold_append, h, GetSnrThreshold, sameConfig_self]
  · intro c2 v h
    simp [AddSnrThreshold, GetSnrThreshold_append, h]

/-- Witness for C4: the table holding `txA`, extended by `txB` with threshold 12.0. -/
theorem GetSnrThreshold_AddSnrThreshold_witness :
    (∀ e ∈ [(Double.zero, txA)], sameConfig txB e.2 = false)
    ∧ GetSnrThreshold (AddSnrThreshold [(Double.zero, txA)] txB snr12) txB = .ok snr12
    ∧ ∀ (c2 : WifiTxVector) (v : Double), GetSnrThreshold [(Double.zero, txA)] c2 = .ok v →
        GetSnrThreshold (AddSnrThreshold [(Double.zero, txA)] txB snr12) c2 = .ok v :=
  ⟨by decide, GetSnrThreshold_AddSnrThreshold [(Double.zero, txA)] txB snr12 (by decide)⟩

/-- C5. The lookup ends in its assertion failure exactly when no entry of the table
agrees with the configuration on mode, nss and width; so it fails for every configuration
on the empty table, and it does not fail for a configuration that was passed to
`AddSnrThreshold`, however many entries were added afterwards. -/
theorem GetSnrThreshold_fails_iff_unregistered (t : Thresholds) (c : WifiTxVector) :
    (GetSnrThreshold t c = .error .assertionFailed
      ↔ ∀ e ∈ t, ¬ (c.m_mode = e.2.m_mode ∧ c.m_nss = e.2.m_nss
                      ∧ c.m_channelWidth = e.2.m_channelWidth))
    ∧ ((∃ v, GetSnrThreshold t c = .ok v)
      ↔ ∃ e ∈ t, c.m_mode = e.2.m_mode ∧ c.m_nss = e.2.m_nss
                      ∧ c.m_channelWidth = e.2.m_channelWidth)
    ∧ GetSnrThreshold [] c = .error .assertionFailed
    ∧ ∀ (q : Double) (later : Thresholds),
        ∃ v, GetSnrThreshold (AddSnrThreshold t c q ++ later) c = .ok v := by
  have key : ∀ (u : Thresholds),
      (GetSnrThreshold u c = .error .assertionFailed
        ↔ ∀ e ∈ u, ¬ (c.m_mode = e.2.m_mode ∧ c.m_nss = e.2.m_nss
                      ∧ c.m_channelWidth = e.2.m_channelWidth)) := by
    intro u
    rw [GetSnrThreshold_error_iff]
    simp [sameConfig]
  have res : ∀ (u : Thresholds), (∃ v, GetSnrThreshold u c = .ok v)
      ↔ ¬ GetSnrThreshold u c = .error .assertionFailed := by
    intro u
    cases h : GetSnrThreshold u c with
    | ok v => simp
    | error f => simp [GetSnrThreshold_fault u c f h]
  refine ⟨key t, ?_, rfl, ?_⟩
  · rw [res, key]
    push_neg
    rfl
  · intro q later
    rw [res, key]
    push_neg
    exact ⟨(q, c), by simp [AddSnrThreshold], rfl, rfl, rfl⟩

/-! ### Table construction on an empty catalog; packet counter and histogram read -/

/-- C7, counterexample: on the catalog with no legacy mode and no MCS, `DoInitialize`
returns normally and the table is empty. -/
theorem DoInitialize_empty_catalog_completes :
    mgrEmpty.phy.modes = [] ∧ mgrEmpty.phy.mcs = []
    ∧ (DoInitialize 256 mgrEmpty).toOption.map (fun m => m.m_thresholds) = some [] := by
  refine ⟨rfl, rfl, rfl⟩

/-- C7, amended. With no legacy mode, and no MCS or no HT/VHT/HE support, `DoInitialize`
returns normally for every fuel and leaves the manager, its table included, as it was. -/
theorem DoInitialize_no_modes (fuel : Nat) (mgr : LlraWifiManager)
    (hmodes : mgr.phy.modes = [])
    (hmcs : mgr.phy.mcs = []
      ∨ (mgr.vhtSupported = false ∧ mgr.htSupported = false ∧ mgr.heSupported = false)) :
    DoInitialize fuel mgr = .ok mgr := by
  rcases hmcs with h | ⟨h1, h2, h3⟩
  · by_cases hs : mgr.vhtSupported = true ∨ mgr.htSupported = true ∨ mgr.heSupported = true
    · simp [DoInitialize, WifiPhy.GetNModes, WifiPhy.GetNMcs, hmodes, h, hs, pure,
        Except.pure]
    · simp [DoInitialize, WifiPhy.GetNModes, hmodes, hs, pure, Except.pure]
  · have hs : ¬ (mgr.vhtSupported = true ∨ mgr.htSupported = true ∨ mgr.heSupported = true) := by
      simp [h1, h2, h3]
    simp [DoInitialize, WifiPhy.GetNModes, hmodes, hs, pure, Except.pure]

/-- Witness for C7 amended, at `mgrEmpty`. -/
theorem DoInitialize_no_modes_witness :
    mgrEmpty.phy.modes = [] ∧ DoInitialize 256 mgrEmpty = .ok mgrEmpty :=
  ⟨rfl, DoInitialize_no_modes 256 mgrEmpty rfl (Or.inl rfl)⟩

/-- C9, counterexample: at the largest counter value, reached after 4294967295 reported
packets, `DoReportDataOk` and `DoReportDataFailed` wrap the packet counter to 0. -/
theorem packets_wraps_at_max :
    Reachable stationMaxPackets
    ∧ stationMaxPackets.m_packets = 4294967295
    ∧ (DoReportDataOk stationMaxPackets snr12 ⟨0⟩ snr12).m_packets = 0
    ∧ (DoReportDataFailed stationMaxPackets).m_packets = 0
    ∧ ¬ (stationMaxPackets.m_packets
          ≤ (DoReportDataOk stationMaxPackets snr12 ⟨0⟩ snr12).m_packets) := by
  refine ⟨stationMaxPackets_reachable, rfl, rfl, rfl, ?_⟩
  decide

theorem packets_kept (s : LlraWifiRemoteStation) (a b : Double) (m : WifiMode)
    (n1 n2 : Nat) :
    (DoReportRxOk s a m).m_packets = s.m_packets
    ∧ (DoReportRtsFailed s).m_packets = s.m_packets
    ∧ (DoReportRtsOk s a m b).m_packets = s.m_packets
    ∧ (DoReportAmpduTxStatus s n1 n2 a b).m_packets = s.m_packets
    ∧ (DoReportFinalRtsFailed s).m_packets = s.m_packets
    ∧ (DoReportFinalDataFailed s).m_packets = s.m_packets
    ∧ ∀ r, DoGetDataTxVector s = .ok r → r.1.m_packets = s.m_packets := by
  refine ⟨rfl, rfl, rfl, ?_, rfl, rfl, ?_⟩
  · cases h : b.eqZero <;> simp [DoReportAmpduTxStatus, h]
  · intro r hr
    unfold DoGetDataTxVector at hr
    split_ifs at hr <;> cases hr <;> rfl

/-- C9, amended. From a state whose packet counter is below 2^32 - 1, none of the nine
operations lowers the counter: `DoReportDataOk` and `DoReportDataFailed` raise it by one,
the other seven leave it equal (`DoGetDataTxVector` whenever it returns, which it does
for every percentile below 100). -/
theorem packets_monotone_below_max (s : LlraWifiRemoteStation) (a b : Double) (m : WifiMode)
    (n1 n2 : Nat) (hlt : s.m_packets < 2 ^ 32 - 1) :
    (s.m_packets ≤ (DoReportRxOk s a m).m_packets
      ∧ s.m_packets ≤ (DoReportRtsFailed s).m_packets
      ∧ s.m_packets ≤ (DoReportDataFailed s).m_packets
      ∧ s.m_packets ≤ (DoReportRtsOk s a m b).m_packets
      ∧ s.m_packets ≤ (DoReportDataOk s a m b).m_packets
      ∧ s.m_packets ≤ (DoReportAmpduTxStatus s n1 n2 a b).m_packets
      ∧ s.m_packets ≤ (DoReportFinalRtsFailed s).m_packets
      ∧ s.m_packets ≤ (DoReportFinalDataFailed s).m_packets
      ∧ ∀ r, DoGetDataTxVector s = .ok r → s.m_packets ≤ r.1.m_packets)
    ∧ (DoReportDataFailed s).m_packets = s.m_packets + 1
    ∧ (DoReportDataOk s a m b).m_packets = s.m_packets + 1
    ∧ (DoReportRxOk s a m).m_packets = s.m_packets
    ∧ (DoReportRtsFailed s).m_packets = s.m_packets
    ∧ (DoReportRtsOk s a m b).m_packets = s.m_packets
    ∧ (DoReportAmpduTxStatus s n1 n2 a b).m_packets = s.m_packets
    ∧ (DoReportFinalRtsFailed s).m_packets = s.m_packets
    ∧ (DoReportFinalDataFailed s).m_packets = s.m_packets
    ∧ (∀ r, DoGetDataTxVector s = .ok r → r.1.m_packets = s.m_packets)
    ∧ (s.m_alpha < 100 → ∃ probed, DoGetDataTxVector s = .ok (s, probed)) := by
  have hmod : (s.m_packets + 1) % 2 ^ 32 = s.m_packets + 1 := by
    apply Nat.mod_eq_of_lt
    omega
  have hfail : (DoReportDataFailed s).m_packets = s.m_packets + 1 := by
    simpa [DoReportDataFailed, CalculateLatency] using hmod
  have hok : (DoReportDataOk s a m b).m_packets = s.m_packets + 1 := by
    cases h : b.eqZero <;> simpa [DoReportDataOk, CalculateLatency, h] using hmod
  obtain ⟨k1, k2, k3, k4, k5, k6, k7⟩ := packets_kept s a b m n1 n2
  refine ⟨⟨k1.ge, k2.ge, ?_, k3.ge, ?_, k4.ge, k5.ge, k6.ge, fun r hr => (k7 r hr).ge⟩,
    hfail, hok, k1, k2, k3, k4, k5, k6, k7, ?_⟩
  · rw [hfail]
    exact Nat.le_succ _
  · rw [hok]
    exact Nat.le_succ _
  · intro ha
    unfold DoGetDataTxVector
    split_ifs
    · exact ⟨true, rfl⟩
    · exact ⟨false, rfl⟩
    · exact ⟨false, rfl⟩

/-- Witness for C9 amended, at the station `stationSeen` (counter 0). -/
theorem packets_monotone_below_max_witness :
    stationSeen.m_packets < 2 ^ 32 - 1
    ∧ stationSeen.m_packets ≤ (DoReportDataOk stationSeen snr12 ⟨0⟩ snr12).m_packets
    ∧ (DoReportDataOk stationSeen snr12 ⟨0⟩ snr12).m_packets = stationSeen.m_packets + 1 :=
  ⟨by decide,
    (packets_monotone_below_max stationSeen snr12 snr12 ⟨0⟩ 0 0 (by decide)).1.2.2.2.2.1,
    (packets_monotone_below_max stationSeen snr12 snr12 ⟨0⟩ 0 0 (by decide)).2.2.1⟩

/-- The histogram read of `DoGetDataTxVector`, taken as a function of an arbitrary
station value, is inside the array exactly for percentiles below 100. -/
theorem DoGetDataTxVector_out_of_bounds_iff (s : LlraWifiRemoteStation) :
    DoGetDataTxVector s = .error .outOfBounds ↔ s.m_packets % 100 = 0 ∧ 100 ≤ s.m_alpha := by
  unfold DoGetDataTxVector
  split_ifs with h1 h2 h3 <;> simp_all

theorem sameConfig_iff (a b : WifiTxVector) :
    sameConfig a b = true ↔ configKey a = configKey b := by
  simp [sameConfig, configKey, and_assoc]

theorem Extends.refl (phy : WifiPhy) (ber : Double) (st : InitState) :
    Extends phy ber [] st st := by
  simp [Extends]

theorem Extends.trans {phy : WifiPhy} {ber : Double} {ks1 ks2 : List (WifiMode × Nat × Nat)}
    {st1 st2 st3 : InitState} (h12 : Extends phy ber ks1 st1 st2)
    (h23 : Extends phy ber ks2 st2 st3) : Extends phy ber (ks1 ++ ks2) st1 st3 := by
  refine ⟨?_, fun h => h23.2 (h12.2 h)⟩
  rw [h23.1, h12.1, List.append_assoc]

theorem Extends.add (phy : WifiPhy) (ber : Double) (tv : WifiTxVector) (st1 st2 : InitState)
    (h : st2.thresholds = AddSnrThreshold st1.thresholds tv (phy.calculateSnr tv ber)) :
    Extends phy ber [configKey tv] st1 st2 := by
  constructor
  · simp [h, AddSnrThreshold, tableKeys]
  · intro hc e he
    rw [h] at he
    simp only [AddSnrThreshold, List.mem_append, List.mem_singleton] at he
    rcases he with he | rfl
    · exact hc e he
    · rfl

theorem foldlM_extends {α : Type} (phy : WifiPhy) (ber : Double)
    (f : InitState → α → Except Fault InitState) (g : α → List (WifiMode × Nat × Nat))
    (P : InitState → Prop) (l : List α)
    (h : ∀ x ∈ l, ∀ st, P st → ∃ st2, f st x = .ok st2 ∧ P st2 ∧ Extends phy ber (g x) st st2) :
    ∀ st, P st →
      ∃ st2, l.foldlM f st = .ok st2 ∧ P st2 ∧ Extends phy ber (l.flatMap g) st st2 := by
  induction l with
  | nil =>
    intro st hst
    exact ⟨st, rfl, hst, Extends.refl phy ber st⟩
  | cons x xs ih =>
    intro st hst
    obtain ⟨st1, h1, hp1, e1⟩ := h x (List.mem_cons_self x xs) st hst
    obtain ⟨st2, h2, hp2, e2⟩ :=
      ih (fun y hy => h y (List.mem_cons_of_mem x hy)) st1 hp1
    refine ⟨st2, ?_, hp2, ?_⟩
    · rw [List.foldlM_cons, h1]
      exact h2
    · rw [List.flatMap_cons]
      exact e1.trans e2

theorem nssLoop_extends (phy : WifiPhy) (ber : Double) (mode : WifiMode)
    (hmax : phy.maxSupportedTxSpatialStreams ≤ 254) :
    ∀ (n fuel k : Nat) (st : InitState),
      k + n = phy.maxSupportedTxSpatialStreams + 1 → n < fuel →
      ∃ st2, nssLoop phy ber mode fuel k st = .ok st2
        ∧ Extends phy ber
            ((List.range' k n).map (fun x => (mode, x, st.txVector.m_channelWidth))) st st2 := by
  intro n
  induction n with
  | zero =>
    intro fuel k st hk hf
    obtain ⟨f, rfl⟩ : ∃ f, fuel = f + 1 := ⟨fuel - 1, by omega⟩
    have hnot : ¬ k ≤ phy.maxSupportedTxSpatialStreams := by omega
    exact ⟨st, by simp [nssLoop, hnot], by simpa using Extends.refl phy ber st⟩
  | succ n ih =>
    intro fuel k st hk hf
    obtain ⟨f, rfl⟩ : ∃ f, fuel = f + 1 := ⟨fuel - 1, by omega⟩
    have hle : k ≤ phy.maxSupportedTxSpatialStreams := by omega
    have hmod : (k + 1) % 2 ^ 8 = k + 1 := by
      apply Nat.mod_eq_of_lt
      omega
    obtain ⟨st2, h2, e2⟩ := ih f (k + 1)
      { st with
        txVector := (st.txVector.SetNss k).SetMode mode
        thresholds := AddSnrThreshold st.thresholds ((st.txVector.SetNss k).SetMode mode)
          (phy.calculateSnr ((st.txVector.SetNss k).SetMode mode) ber) }
      (by omega) (by omega)
    refine ⟨st2, ?_, ?_⟩
    · simp only [nssLoop, hle, if_true, hmod]
      exact h2
    · have e1 := Extends.add phy ber ((st.txVector.SetNss k).SetMode mode) st
        { st with
          txVector := (st.txVector.SetNss k).SetMode mode
          thresholds := AddSnrThreshold st.thresholds ((st.txVector.SetNss k).SetMode mode)
            (phy.calculateSnr ((st.txVector.SetNss k).SetMode mode) ber) } rfl
      have e := e1.trans e2
      simpa [List.range'_succ, configKey, WifiTxVector.SetNss, WifiTxVector.SetMode] using e

theorem widthBody_extends (phy : WifiPhy) (ber : Double) (nssFuel i j : Nat)
    (st : InitState) (hmax : phy.maxSupportedTxSpatialStreams ≤ 254)
    (hfuel : 255 ≤ nssFuel) :
    ∃ st2, widthBody phy ber nssFuel i j st = .ok st2
      ∧ Extends phy ber (mcsKeys phy (phy.GetMcs i) j) st st2 := by
  by_cases hht : phy.modulationClass (phy.GetMcs i) = WIFI_MOD_CLASS_HT
  · have hk : mcsKeys phy (phy.GetMcs i) j
        = [configKey ((((st.txVector.SetChannelWidth j).SetGuardInterval
            (if phy.shortGuardInterval then 400 else 800)).SetNss
            (((phy.mcsValue (phy.GetMcs i) % 2 ^ 8) / 8 + 1) % 2 ^ 8)).SetMode
              (phy.GetMcs i))] := by
      simp [mcsKeys, hht, configKey, WifiTxVector.SetNss, WifiTxVector.SetMode,
        WifiTxVector.SetChannelWidth, WifiTxVector.SetGuardInterval]
    simp only [widthBody, hht, if_true]
    rw [hk]
    exact ⟨_, rfl, Extends.add phy ber _ st _ rfl⟩
  · obtain ⟨st2, h2, e2⟩ := nssLoop_extends phy ber (phy.GetMcs i) hmax
      phy.maxSupportedTxSpatialStreams nssFuel 1
      { st with txVector := st.txVector.SetChannelWidth j } (by omega) (by omega)
    refine ⟨st2, by simp only [widthBody, hht, if_false]; exact h2, ?_⟩
    constructor
    · simpa [mcsKeys, hht, WifiTxVector.SetChannelWidth] using e2.1
    · exact e2.2

theorem widthLoop_extends (phy : WifiPhy) (ber : Double) (nssFuel i : Nat)
    (hmax : phy.maxSupportedTxSpatialStreams ≤ 254) (hfuel : 255 ≤ nssFuel) :
    ∀ (ws : List Nat) (fuel j : Nat) (st : InitState),
      Visits phy.channelWidth j ws → ws.length < fuel →
      ∃ st2, widthLoop phy ber nssFuel i fuel j st = .ok st2
        ∧ Extends phy ber (ws.flatMap (mcsKeys phy (phy.GetMcs i))) st st2 := by
  intro ws
  induction ws with
  | nil =>
    intro fuel j st hv hf
    obtain ⟨f, rfl⟩ : ∃ f, fuel = f + 1 := ⟨fuel - 1, by simp at hf; omega⟩
    have hnot : ¬ j ≤ phy.channelWidth := hv
    exact ⟨st, by simp [widthLoop, hnot], by simpa using Extends.refl phy ber st⟩
  | cons w ws ih =>
    intro fuel j st hv hf
    obtain ⟨f, rfl⟩ : ∃ f, fuel = f + 1 := ⟨fuel - 1, by simp at hf; omega⟩
    obtain ⟨rfl, hle, hrest⟩ := hv
    obtain ⟨st1, h1, e1⟩ := widthBody_extends phy ber nssFuel i j st hmax hfuel
    obtain ⟨st2, h2, e2⟩ := ih f ((j * 2) % 2 ^ 16) st1 hrest
      (by simp only [List.length_cons] at hf; omega)
    refine ⟨st2, ?_, ?_⟩
    · simp only [widthLoop, hle, if_true, h1]
      exact h2
    · rw [List.flatMap_cons]
      exact e1.trans e2

theorem visits_widthsUpTo (w : Nat) (hw : w = 20 ∨ w = 40 ∨ w = 80 ∨ w = 160) :
    Visits w 20 (widthsUpTo w) := by
  rcases hw with rfl | rfl | rfl | rfl <;> simp [Visits, widthsUpTo]

theorem legacyBody_extends (phy : WifiPhy) (ber : Double) (i : Nat) (st : InitState)
    (hcls : phy.modulationClass (phy.GetMode i) ≠ WIFI_MOD_CLASS_HT
      ∧ phy.modulationClass (phy.GetMode i) ≠ WIFI_MOD_CLASS_VHT
      ∧ phy.modulationClass (phy.GetMode i) ≠ WIFI_MOD_CLASS_HE)
    (hnss : st.nss = 1) :
    ∃ st2, legacyBody phy ber st i = .ok st2 ∧ st2.nss = 1
      ∧ Extends phy ber (legacyKeys phy (phy.GetMode i)) st st2 := by
  obtain ⟨w, hw⟩ : ∃ w, GetChannelWidthForMode phy (phy.GetMode i) = .ok w := by
    unfold GetChannelWidthForMode
    rw [if_pos hcls]
    split_ifs
    · exact ⟨22, rfl⟩
    · exact ⟨20, rfl⟩
  have hk : legacyKeys phy (phy.GetMode i)
      = [configKey (((st.txVector.SetChannelWidth w).SetNss st.nss).SetMode
          (phy.GetMode i))] := by
    simp [legacyKeys, hw, hnss, configKey, WifiTxVector.SetNss, WifiTxVector.SetMode,
      WifiTxVector.SetChannelWidth]
  simp only [legacyBody, hw]
  rw [hk]
  exact ⟨_, rfl, hnss, Extends.add phy ber _ st _ rfl⟩

theorem map_getD_range {α : Type} (l : List α) (d : α) :
    (List.range l.length).map (fun i => l.getD i d) = l := by
  apply List.ext_getElem
  · simp
  · intro n h1 h2
    simp at h1
    simp [List.getD_eq_getElem?_getD, List.getElem?_eq_getElem h1]

theorem flatMap_range_getD {α β : Type} (l : List α) (d : α) (g : α → List β) :
    (List.range l.length).flatMap (fun i => g (l.getD i d)) = l.flatMap g := by
  have h := congrArg (fun xs => List.flatMap xs g) (map_getD_range l d)
  simpa [List.flatMap_map] using h

theorem DoInitialize_keys (fuel : Nat) (mgr : LlraWifiManager) (hfuel : 256 ≤ fuel)
    (hlen : mgr.phy.modes.length < 256)
    (hcls : ∀ m ∈ mgr.phy.modes, mgr.phy.modulationClass m ≠ WIFI_MOD_CLASS_HT
      ∧ mgr.phy.modulationClass m ≠ WIFI_MOD_CLASS_VHT
      ∧ mgr.phy.modulationClass m ≠ WIFI_MOD_CLASS_HE)
    (hmlen : mgr.phy.mcs.length < 256)
    (hw : mgr.phy.channelWidth = 20 ∨ mgr.phy.channelWidth = 40
      ∨ mgr.phy.channelWidth = 80 ∨ mgr.phy.channelWidth = 160)
    (hmax : mgr.phy.maxSupportedTxSpatialStreams ≤ 254) :
    ∃ mgr2, DoInitialize fuel mgr = .ok mgr2
      ∧ tableKeys mgr2.m_thresholds
          = tableKeys mgr.m_thresholds ++ (mgr.phy.modes.flatMap (legacyKeys mgr.phy)
            ++ if mgr.vhtSupported = true ∨ mgr.htSupported = true ∨ mgr.heSupported = true
              then mgr.phy.mcs.flatMap (fun m =>
                (widthsUpTo mgr.phy.channelWidth).flatMap (mcsKeys mgr.phy m))
              else [])
      ∧ (Computed mgr.phy mgr.m_ber mgr.m_thresholds →
          Computed mgr.phy mgr.m_ber mgr2.m_thresholds) := by
  have hn1 : mgr.phy.GetNModes % 2 ^ 8 = mgr.phy.modes.length := by
    apply Nat.mod_eq_of_lt
    simpa [WifiPhy.GetNModes] using hlen
  have hn2 : mgr.phy.GetNMcs % 2 ^ 8 = mgr.phy.mcs.length := by
    apply Nat.mod_eq_of_lt
    simpa [WifiPhy.GetNMcs] using hmlen
  obtain ⟨st1, h1, -, e1⟩ := foldlM_extends mgr.phy mgr.m_ber (legacyBody mgr.phy mgr.m_ber)
    (fun i => legacyKeys mgr.phy (mgr.phy.GetMode i)) (fun st => st.nss = 1)
    (List.range mgr.phy.modes.length)
    (by
      intro i hi st hst
      apply legacyBody_extends mgr.phy mgr.m_ber i st _ hst
      apply hcls
      rw [List.mem_range] at hi
      simp [WifiPhy.GetMode, List.getD_eq_getElem?_getD, List.getElem?_eq_getElem hi])
    { txVector := WifiTxVector.new, nss := 1, thresholds := mgr.m_thresholds } rfl
  have k1 : (List.range mgr.phy.modes.length).flatMap
        (fun i => legacyKeys mgr.phy (mgr.phy.GetMode i))
      = mgr.phy.modes.flatMap (legacyKeys mgr.phy) :=
    flatMap_range_getD mgr.phy.modes ⟨0⟩ (legacyKeys mgr.phy)
  rw [k1] at e1
  by_cases hs : mgr.vhtSupported = true ∨ mgr.htSupported = true ∨ mgr.heSupported = true
  · obtain ⟨st2, h2, -, e2⟩ := foldlM_extends mgr.phy mgr.m_ber
      (fun st i => widthLoop mgr.phy mgr.m_ber fuel i fuel 20 st)
      (fun i => (widthsUpTo mgr.phy.channelWidth).flatMap (mcsKeys mgr.phy (mgr.phy.GetMcs i)))
      (fun _ => True) (List.range mgr.phy.mcs.length)
      (by
        intro i _ st _
        obtain ⟨st2, h2, e2⟩ := widthLoop_extends mgr.phy mgr.m_ber fuel i hmax (by omega)
          (widthsUpTo mgr.phy.channelWidth) fuel 20 st
          (visits_widthsUpTo mgr.phy.channelWidth hw)
          (by
            have : (widthsUpTo mgr.phy.channelWidth).length ≤ 4 := by
              unfold widthsUpTo
              exact le_trans (List.length_filter_le _ _) (le_refl _)
            omega)
        exact ⟨st2, h2, trivial, e2⟩)
      st1 trivial
    have k2 : (List.range mgr.phy.mcs.length).flatMap
          (fun i => (widthsUpTo mgr.phy.channelWidth).flatMap
            (mcsKeys mgr.phy (mgr.phy.GetMcs i)))
        = mgr.phy.mcs.flatMap (fun m =>
            (widthsUpTo mgr.phy.channelWidth).flatMap (mcsKeys mgr.phy m)) :=
      flatMap_range_getD mgr.phy.mcs ⟨0⟩
        (fun m => (widthsUpTo mgr.phy.channelWidth).flatMap (mcsKeys mgr.phy m))
    rw [k2] at e2
    have e := e1.trans e2
    refine ⟨{ mgr with m_thresholds := st2.thresholds }, ?_, ?_, e.2⟩
    · simp only [DoInitialize, hn1, hn2, h1, h2, hs, if_true]
    · rw [if_pos hs]
      exact e.1
  · refine ⟨{ mgr with m_thresholds := st1.thresholds }, ?_, ?_, e1.2⟩
    · simp only [DoInitialize, hn1, h1, hs, if_false]
    · rw [if_neg hs, List.append_nil]
      exact e1.1

theorem nodup_flatMap_tagged {α β : Type} (tag : β → α) (g : α → List β) (l : List α)
    (hl : l.Nodup) (hg : ∀ x ∈ l, (g x).Nodup) (ht : ∀ x ∈ l, ∀ y ∈ g x, tag y = x) :
    (l.flatMap g).Nodup := by
  rw [List.nodup_flatMap]
  refine ⟨hg, ?_⟩
  refine List.Pairwise.imp_of_mem ?_ hl
  intro a b ha hb hne y hya hyb
  exact hne ((ht a ha y hya).symm.trans (ht b hb y hyb))

theorem legacyKeys_tag (phy : WifiPhy) (m : WifiMode) :
    ∀ y ∈ legacyKeys phy m, y.1 = m := by
  intro y hy
  unfold legacyKeys at hy
  split at hy
  · simp only [List.mem_singleton] at hy
    rw [hy]
  · simp at hy

theorem legacyKeys_nodup (phy : WifiPhy) (m : WifiMode) : (legacyKeys phy m).Nodup := by
  unfold legacyKeys
  split <;> simp

theorem mcsKeys_tag (phy : WifiPhy) (m : WifiMode) (j : Nat) :
    ∀ y ∈ mcsKeys phy m j, y.1 = m ∧ y.2.2 = j := by
  intro y hy
  unfold mcsKeys at hy
  split_ifs at hy
  · simp only [List.mem_singleton] at hy
    rw [hy]
    exact ⟨rfl, rfl⟩
  · simp only [List.mem_map] at hy
    obtain ⟨k, -, rfl⟩ := hy
    exact ⟨rfl, rfl⟩

theorem mcsKeys_nodup (phy : WifiPhy) (m : WifiMode) (j : Nat) : (mcsKeys phy m j).Nodup := by
  unfold mcsKeys
  split_ifs
  · simp
  · apply List.Nodup.map_on _ (List.nodup_range' 1 _)
    intro a _ b _ hab
    simpa using hab

theorem widthsUpTo_nodup (w : Nat) : (widthsUpTo w).Nodup := by
  unfold widthsUpTo
  apply List.Nodup.filter
  decide

theorem mem_widthsUpTo (w j : Nat) :
    j ∈ widthsUpTo w ↔ (j = 20 ∨ j = 40 ∨ j = 80 ∨ j = 160) ∧ j ≤ w := by
  simp [widthsUpTo, List.mem_filter]

theorem registered_keys_nodup (phy : WifiPhy) (hnd : phy.modes.Nodup) (hmnd : phy.mcs.Nodup)
    (hdisj : ∀ m ∈ phy.mcs, m ∉ phy.modes) :
    (phy.modes.flatMap (legacyKeys phy)
      ++ phy.mcs.flatMap (fun m =>
          (widthsUpTo phy.channelWidth).flatMap (mcsKeys phy m))).Nodup := by
  have tag2 : ∀ m, ∀ y ∈ (widthsUpTo phy.channelWidth).flatMap (mcsKeys phy m), y.1 = m := by
    intro m y hy
    rw [List.mem_flatMap] at hy
    obtain ⟨j, -, hj⟩ := hy
    exact (mcsKeys_tag phy m j y hj).1
  apply List.Nodup.append
  · exact nodup_flatMap_tagged (fun y => y.1) _ _ hnd (fun m _ => legacyKeys_nodup phy m)
      (fun m _ => legacyKeys_tag phy m)
  · refine nodup_flatMap_tagged (fun y => y.1) _ _ hmnd (fun m _ => ?_) (fun m _ => tag2 m)
    exact nodup_flatMap_tagged (fun y => y.2.2) _ _ (widthsUpTo_nodup _)
      (fun j _ => mcsKeys_nodup phy m j) (fun j _ y hy => (mcsKeys_tag phy m j y hy).2)
  · intro y h1 h2
    rw [List.mem_flatMap] at h1 h2
    obtain ⟨m1, hm1, hy1⟩ := h1
    obtain ⟨m2, hm2, hy2⟩ := h2
    have e1 := legacyKeys_tag phy m1 y hy1
    have e2 := tag2 m2 y hy2
    exact hdisj m2 hm2 (by rw [← e2, e1]; exact hm1)

theorem resolves_of_mem (phy : WifiPhy) (ber : Double) (t : Thresholds)
    (hc : Computed phy ber t) (κ : WifiMode × Nat × Nat) (h : κ ∈ tableKeys t) :
    Resolves phy ber t κ := by
  induction t with
  | nil => simp [tableKeys] at h
  | cons e t ih =>
    obtain ⟨snr, tv0⟩ := e
    intro c hck
    by_cases hsame : sameConfig c tv0 = true
    · refine ⟨tv0, ?_, ?_⟩
      · rw [← (sameConfig_iff c tv0).1 hsame, hck]
      · have : snr = phy.calculateSnr tv0 ber := hc (snr, tv0) (List.mem_cons_self _ _)
        simp [GetSnrThreshold, hsame, this]
    · have hne : κ ≠ configKey tv0 := by
        intro heq
        exact hsame ((sameConfig_iff c tv0).2 (hck.trans heq))
      have hmem : κ ∈ tableKeys t := by
        simp only [tableKeys, List.map_cons, List.mem_cons] at h
        rcases h with h | h
        · exact absurd h hne
        · exact h
      obtain ⟨tv, hk, hres⟩ :=
        ih (fun e he => hc e (List.mem_cons_of_mem _ he)) hmem c hck
      exact ⟨tv, hk, by simp [GetSnrThreshold, hsame, hres]⟩

theorem pairwise_of_nodup_keys (t : Thresholds) (h : (tableKeys t).Nodup) :
    t.Pairwise (fun a b => sameConfig a.2 b.2 = false) := by
  unfold tableKeys at h
  rw [List.Nodup, List.pairwise_map] at h
  refine h.imp ?_
  intro a b hne
  cases hs : sameConfig a.2 b.2
  · rfl
  · exact absurd ((sameConfig_iff a.2 b.2).1 hs) hne

theorem nssLoop_diverges (phy : WifiPhy) (ber : Double) (mode : WifiMode)
    (hmax : 255 ≤ phy.maxSupportedTxSpatialStreams) :
    ∀ (fuel k : Nat) (st : InitState), k < 256 →
      nssLoop phy ber mode fuel k st = .error .outOfFuel := by
  intro fuel
  induction fuel with
  | zero => intro k st _; rfl
  | succ f ih =>
    intro k st hk
    have hle : k ≤ phy.maxSupportedTxSpatialStreams := by omega
    simp only [nssLoop, hle, if_true]
    exact ih _ _ (Nat.mod_lt _ (by norm_num))

theorem widthLoop_diverges (phy : WifiPhy) (ber : Double) (nssFuel i : Nat)
    (hmax : 255 ≤ phy.maxSupportedTxSpatialStreams)
    (hcls : phy.modulationClass (phy.GetMcs i) ≠ WIFI_MOD_CLASS_HT)
    (hw : 20 ≤ phy.channelWidth) (fuel : Nat) (st : InitState) :
    widthLoop phy ber nssFuel i fuel 20 st = .error .outOfFuel := by
  cases fuel with
  | zero => rfl
  | succ f =>
    simp only [widthLoop, hw, if_true, widthBody, hcls, if_false,
      nssLoop_diverges phy ber (phy.GetMcs i) hmax nssFuel 1 _ (by norm_num)]

theorem DoInitialize_streams255 (fuel : Nat) :
    DoInitialize fuel mgrStreams255 = .error .outOfFuel := by
  have hw : ∀ (i : Nat) (st : InitState),
      widthLoop mgrStreams255.phy mgrStreams255.m_ber fuel i fuel 20 st
        = .error .outOfFuel := by
    intro i st
    exact widthLoop_diverges _ _ _ _ (le_refl 255) (by simp [mgrStreams255, phyStreams255])
      (le_refl 20) fuel st
  unfold DoInitialize
  simp only [hw]
  rfl

/-- C6, counterexample. (1) With one VHT MCS and 255 spatial streams the stream loop of
`DoInitialize` never ends: no fuel gives a result. (2) With a mode listed both as a legacy
mode and as an MCS, `DoInitialize` registers the key (mode, 1, 20) twice. -/
theorem DoInitialize_not_once :
    (mgrStreams255.phy.modes = [] ∧ mgrStreams255.phy.mcs = [⟨20⟩]
      ∧ mgrStreams255.phy.channelWidth = 20
      ∧ ¬ ∃ fuel mgr2, DoInitialize fuel mgrStreams255 = .ok mgr2)
    ∧ (mgrShared.phy.modes = [⟨2⟩] ∧ mgrShared.phy.mcs = [⟨2⟩]
      ∧ mgrShared.phy.channelWidth = 20
      ∧ (DoInitialize 256 mgrShared).toOption.map (fun m => tableKeys m.m_thresholds)
          = some [(⟨2⟩, 1, 20), (⟨2⟩, 1, 20)]) := by
  refine ⟨⟨rfl, rfl, rfl, ?_⟩, rfl, rfl, rfl, rfl⟩
  rintro ⟨fuel, mgr2, h⟩
  rw [DoInitialize_streams255 fuel] at h
  cases h

/-- C6, amended. For a catalog with fewer than 256 pairwise-distinct legacy modes (none of
class HT, VHT, HE), fewer than 256 pairwise-distinct MCS modes none of which is also a
legacy mode, a PHY width in {20, 40, 80, 160} and at most 254 spatial streams,
`DoInitialize` from an empty table returns for every fuel of at least 256, and then
(a) no two entries of the table agree on mode, nss and width, and (b) the lookup resolves
to an SNR the PHY computed at the target BER for: each legacy mode with nss 1 and width
`GetChannelWidthForMode`; and, when HT, VHT or HE is supported, at every width 20, 40,
80, 160 not above the PHY width, each HT MCS with nss `mcsValue / 8 + 1` and each other
MCS with every nss from 1 to the number of spatial streams. -/
theorem DoInitialize_registers_each_once (fuel : Nat) (mgr : LlraWifiManager)
    (hfuel : 256 ≤ fuel) (hempty : mgr.m_thresholds = [])
    (hlen : mgr.phy.modes.length < 256) (hnd : mgr.phy.modes.Nodup)
    (hcls : ∀ m ∈ mgr.phy.modes, mgr.phy.modulationClass m ≠ WIFI_MOD_CLASS_HT
      ∧ mgr.phy.modulationClass m ≠ WIFI_MOD_CLASS_VHT
      ∧ mgr.phy.modulationClass m ≠ WIFI_MOD_CLASS_HE)
    (hmlen : mgr.phy.mcs.length < 256) (hmnd : mgr.phy.mcs.Nodup)
    (hdisj : ∀ m ∈ mgr.phy.mcs, m ∉ mgr.phy.modes)
    (hw : mgr.phy.channelWidth = 20 ∨ mgr.phy.channelWidth = 40
      ∨ mgr.phy.channelWidth = 80 ∨ mgr.phy.channelWidth = 160)
    (hmax : mgr.phy.maxSupportedTxSpatialStreams ≤ 254) :
    ∃ mgr2, DoInitialize fuel mgr = .ok mgr2
      ∧ mgr2.m_thresholds.Pairwise (fun a b => sameConfig a.2 b.2 = false)
      ∧ (∀ m ∈ mgr.phy.modes, ∃ w, GetChannelWidthForMode mgr.phy m = .ok w
          ∧ Resolves mgr.phy mgr.m_ber mgr2.m_thresholds (m, 1, w))
      ∧ ((mgr.vhtSupported = true ∨ mgr.htSupported = true ∨ mgr.heSupported = true) →
          ∀ m ∈ mgr.phy.mcs, ∀ j, (j = 20 ∨ j = 40 ∨ j = 80 ∨ j = 160) →
            j ≤ mgr.phy.channelWidth →
            (mgr.phy.modulationClass m = WIFI_MOD_CLASS_HT →
              Resolves mgr.phy mgr.m_ber mgr2.m_thresholds
                (m, (mgr.phy.mcsValue m % 2 ^ 8) / 8 + 1, j))
            ∧ (mgr.phy.modulationClass m ≠ WIFI_MOD_CLASS_HT →
              ∀ k, 1 ≤ k → k ≤ mgr.phy.maxSupportedTxSpatialStreams →
                Resolves mgr.phy mgr.m_ber mgr2.m_thresholds (m, k, j))) := by
  obtain ⟨mgr2, hrun, hkeys, hcomp⟩ :=
    DoInitialize_keys fuel mgr hfuel hlen hcls hmlen hw hmax
  have hc : Computed mgr.phy mgr.m_ber mgr2.m_thresholds := by
    apply hcomp
    rw [hempty]
    intro e he
    simp at he
  simp only [hempty, tableKeys, List.map_nil, List.nil_append] at hkeys
  change tableKeys mgr2.m_thresholds = _ at hkeys
  refine ⟨mgr2, hrun, ?_, ?_, ?_⟩
  · apply pairwise_of_nodup_keys
    rw [hkeys]
    have hall := registered_keys_nodup mgr.phy hnd hmnd hdisj
    split_ifs
    · exact hall
    · rw [List.append_nil]
      exact (List.nodup_append.1 hall).1
  · intro m hm
    obtain ⟨w, hwm⟩ : ∃ w, GetChannelWidthForMode mgr.phy m = .ok w := by
      unfold GetChannelWidthForMode
      rw [if_pos (hcls m hm)]
      split_ifs
      · exact ⟨22, rfl⟩
      · exact ⟨20, rfl⟩
    refine ⟨w, hwm, resolves_of_mem _ _ _ hc _ ?_⟩
    rw [hkeys, List.mem_append]
    left
    rw [List.mem_flatMap]
    exact ⟨m, hm, by simp [legacyKeys, hwm]⟩
  · intro hs m hm j hj hjw
    have hjmem : j ∈ widthsUpTo mgr.phy.channelWidth := (mem_widthsUpTo _ _).2 ⟨hj, hjw⟩
    have hin : ∀ κ, κ ∈ mcsKeys mgr.phy m j → κ ∈ tableKeys mgr2.m_thresholds := by
      intro κ hκ
      rw [hkeys, if_pos hs, List.mem_append]
      right
      rw [List.mem_flatMap]
      exact ⟨m, hm, List.mem_flatMap.2 ⟨j, hjmem, hκ⟩⟩
    constructor
    · intro hht
      apply resolves_of_mem _ _ _ hc
      apply hin
      have hmod : ((mgr.phy.mcsValue m % 2 ^ 8) / 8 + 1) % 2 ^ 8
          = (mgr.phy.mcsValue m % 2 ^ 8) / 8 + 1 := by
        apply Nat.mod_eq_of_lt
        have := Nat.mod_lt (mgr.phy.mcsValue m) (show 0 < 2 ^ 8 by norm_num)
        omega
      simp only [mcsKeys, hht, if_true, hmod, List.mem_singleton]
    · intro hht k hk1 hk2
      apply resolves_of_mem _ _ _ hc
      apply hin
      simp only [mcsKeys, hht, if_false, List.mem_map, List.mem_range'_1]
      exact ⟨k, ⟨hk1, by omega⟩, rfl⟩

/-- Witness for C6 amended, at the manager `mgrSample`. -/
theorem DoInitialize_registers_each_once_witness :
    mgrSample.m_thresholds = [] ∧ mgrSample.phy.maxSupportedTxSpatialStreams ≤ 254
    ∧ ∃ mgr2, DoInitialize 256 mgrSample = .ok mgr2
      ∧ mgr2.m_thresholds.Pairwise (fun a b => sameConfig a.2 b.2 = false)
      ∧ (∀ m ∈ mgrSample.phy.modes, ∃ w, GetChannelWidthForMode mgrSample.phy m = .ok w
          ∧ Resolves mgrSample.phy mgrSample.m_ber mgr2.m_thresholds (m, 1, w))
      ∧ ((mgrSample.vhtSupported = true ∨ mgrSample.htSupported = true
            ∨ mgrSample.heSupported = true) →
          ∀ m ∈ mgrSample.phy.mcs, ∀ j, (j = 20 ∨ j = 40 ∨ j = 80 ∨ j = 160) →
            j ≤ mgrSample.phy.channelWidth →
            (mgrSample.phy.modulationClass m = WIFI_MOD_CLASS_HT →
              Resolves mgrSample.phy mgrSample.m_ber mgr2.m_thresholds
                (m, (mgrSample.phy.mcsValue m % 2 ^ 8) / 8 + 1, j))
            ∧ (mgrSample.phy.modulationClass m ≠ WIFI_MOD_CLASS_HT →
              ∀ k, 1 ≤ k → k ≤ mgrSample.phy.maxSupportedTxSpatialStreams →
                Resolves mgrSample.phy mgrSample.m_ber mgr2.m_thresholds (m, k, j))) :=
  ⟨rfl, by decide,
    DoInitialize_registers_each_once 256 mgrSample (le_refl 256) rfl (by decide) (by decide)
      (by decide) (by decide) (by decide) (by decide) (Or.inr (Or.inl rfl)) (by decide)⟩

end Llra
